import Mathlib

/-!
Verification of the `full_stack_development_2025` repository's API routes and
Redux slices against its natural-language specification.

The embedding is shallow: JavaScript values are modelled by the inductive
`JsValue`; the MongoDB query operators used by the routes (`$regex` with the
`i` flag on a literal pattern, and `$in`) are modelled by executable Boolean
functions; the two Next.js route handlers become pure Lean functions taking
the outcome of their database call as an `Except` argument (the `catch`
branch of the source corresponds to the `.error` case).  The Redux slices
become pure reducers over explicit state records.
-/

/-- A JavaScript/JSON value, as stored in MongoDB documents and carried by
Redux action payloads.  Numbers are modelled as integers (all numbers
appearing in the routes are array lengths and counts). -/
inductive JsValue where
  | null : JsValue
  | bool (b : Bool) : JsValue
  | num (n : Int) : JsValue
  | str (s : String) : JsValue
  | arr (xs : List JsValue) : JsValue
  | obj (fields : List (String × JsValue)) : JsValue

namespace JsValue

/-- Field lookup in an object's field list: the first binding wins, as in a
JS object literal / BSON document. -/
def lookupField : List (String × JsValue) → String → Option JsValue
  | [], _ => none
  | (k, v) :: rest, key => if k == key then some v else lookupField rest key

/-- Read a top-level field of a document; non-objects have no fields. -/
def getField (doc : JsValue) (key : String) : Option JsValue :=
  match doc with
  | .obj fs => lookupField fs key
  | _ => none

/-- Read a MongoDB dotted path such as `hiringCriteria.skills`, descending
through nested objects (the documents in this repository nest plain
objects, not arrays, along this path). -/
def getPath (doc : JsValue) : List String → Option JsValue
  | [] => some doc
  | key :: rest =>
    match getField doc key with
    | some v => getPath v rest
    | none => none

end JsValue

/-- Boolean test that `pat` is a prefix of `s` (over character lists). -/
def charsHavePre : List Char → List Char → Bool
  | [], _ => true
  | _ :: _, [] => false
  | a :: as, b :: bs => a == b && charsHavePre as bs

/-- Boolean test that `pat` occurs as a contiguous run inside `s`. -/
def charsContain (pat : List Char) : List Char → Bool
  | [] => pat.isEmpty
  | b :: bs => charsHavePre pat (b :: bs) || charsContain pat bs

/-- Lower-case every character of a list. -/
def lowerChars (cs : List Char) : List Char := cs.map Char.toLower

/-- Model of `new RegExp(pattern, 'i').test(s)` for the literal (meta-free)
patterns the routes pass through from query parameters: an unanchored,
case-insensitive substring test. -/
def regexTestI (pattern s : String) : Bool :=
  charsContain (lowerChars pattern.toList) (lowerChars s.toList)

/-- MongoDB `{field: {$regex: re}}` semantics at a field value: a string
matches if the regex tests true on it; an array matches if some string
element does; a missing or non-string value does not match. -/
def mongoRegexI (pattern : String) (v : Option JsValue) : Bool :=
  match v with
  | some (.str s) => regexTestI pattern s
  | some (.arr xs) =>
    xs.any fun x => match x with | .str s => regexTestI pattern s | _ => false
  | _ => false

/-- MongoDB `{field: {$in: [target]}}` semantics at a field value: the value
matches if it equals the target string, or is an array containing it. -/
def mongoIn (target : String) (v : Option JsValue) : Bool :=
  match v with
  | some (.str s) => s == target
  | some (.arr xs) =>
    xs.any fun x => match x with | .str s => s == target | _ => false
  | _ => false

/-- Truthiness of `url.searchParams.get(k)`: `null` (absent parameter) and
the empty string are falsy, every other string is truthy. -/
def jsTruthy : Option String → Bool
  | none => false
  | some s => s ≠ ""

/-- The filter object built by `GET /api/companies/search`: an optional
case-insensitive regex constraint on `name`, one on `location`, and an
optional `$in` constraint on `hiringCriteria.skills`. -/
structure MongoFilter where
  nameRe : Option String
  locationRe : Option String
  skillsIn : Option String
deriving DecidableEq

/-- Filter construction from the search route:

    const filter = {};
    if (name) filter.name = { $regex: new RegExp(name, 'i') };
    if (location) filter.location = { $regex: new RegExp(location, 'i') };
    if (skill) filter['hiringCriteria.skills'] = { $in: [skill] };
-/
def buildFilter (name location skill : Option String) : MongoFilter :=
  { nameRe := if jsTruthy name then name else none
    locationRe := if jsTruthy location then location else none
    skillsIn := if jsTruthy skill then skill else none }

/-- Whether a document satisfies every constraint of a filter, per MongoDB
`find` semantics on the three constraints the route can emit. -/
def matchesFilter (f : MongoFilter) (doc : JsValue) : Bool :=
  (match f.nameRe with
    | some p => mongoRegexI p (doc.getField "name")
    | none => true) &&
  (match f.locationRe with
    | some p => mongoRegexI p (doc.getField "location")
    | none => true) &&
  (match f.skillsIn with
    | some t => mongoIn t (doc.getPath ["hiringCriteria", "skills"])
    | none => true)

/-- An HTTP response as produced by `NextResponse.json(body, {status})`. -/
structure Response where
  status : Nat
  body : JsValue

/-- The result list of `coll.find(filter).limit(50).toArray()`: the first 50
documents of the collection, in collection order, that satisfy the filter. -/
def searchItems (f : MongoFilter) (db : List JsValue) : List JsValue :=
  (db.filter fun d => matchesFilter f d).take 50

/-- The generic 500 response produced by each route's `catch` block. -/
def resp500 : Response :=
  { status := 500, body := .obj [("error", .str "Internal Server Error")] }

/-- Handler of `GET /api/companies/search` (route.js).  `name`, `location`,
`skill` are the three query parameters (`none` when absent); `dbResult` is
the outcome of the awaited database work inside the `try` block, with
`.error` standing for any thrown exception (connection failure, query
failure, invalid regex pattern), which the `catch` block maps to the
generic 500 response.  (The source file carries an unresolved merge
conflict in which the two branches differ only in the database name,
`assignment` versus `workbook`; the logic verified here is common to
both branches.) -/
def searchGET (name location skill : Option String)
    (dbResult : Except String (List JsValue)) : Response :=
  match dbResult with
  | .error _ => resp500
  | .ok db =>
    let items := searchItems (buildFilter name location skill) db
    { status := 200
      body := .obj [("count", .num items.length), ("items", .arr items)] }

/-- Hexadecimal digit test used by `ObjectId.isValid` on strings. -/
def isHexDigit (c : Char) : Bool :=
  (('0' ≤ c) && (c ≤ '9')) || (('a' ≤ c) && (c ≤ 'f')) || (('A' ≤ c) && (c ≤ 'F'))

/-- Model of `ObjectId.isValid(id)` for string arguments: a 24-character
hexadecimal string. -/
def isValidObjectId (id : String) : Bool :=
  id.toList.length == 24 && id.toList.all isHexDigit

/-- Handler of `GET /api/companies/[id]` (part of the repository outside a
named path; its full source is `src/unnamed/part_002`).  `dbResult` is the
outcome of `coll.findOne({_id: new ObjectId(id)})` together with the
connection steps before it, with `.error` standing for any thrown
exception; the validity check runs before any database work, so an invalid
id yields 400 whatever `dbResult` would have been. -/
def getByIdGET (id : String) (dbResult : Except String (Option JsValue)) :
    Response :=
  if isValidObjectId id then
    match dbResult with
    | .error _ => resp500
    | .ok none => { status := 404, body := .obj [("error", .str "Not found")] }
    | .ok (some doc) => { status := 200, body := doc }
  else
    { status := 400, body := .obj [("error", .str "Invalid id")] }

/-- The actions that can reach the store's reducers: the three lifecycle
actions of the `user/fetchUsers` thunk, the three of the `Post/fetchPost`
thunk, and any other action (identified by its type string), which neither
slice declares a case for.  Rejected actions carry `action.error.message`,
which may be absent (`undefined`). -/
inductive ReduxAction where
  | usersPending : ReduxAction
  | usersFulfilled (payload : JsValue) : ReduxAction
  | usersRejected (msg : Option String) : ReduxAction
  | postPending : ReduxAction
  | postFulfilled (payload : JsValue) : ReduxAction
  | postRejected (msg : Option String) : ReduxAction
  | other (ty : String) : ReduxAction

/-- State of the `user` slice (userSlice.js): `{users: [], loading: false,
error: null}` initially. -/
structure UserState where
  users : JsValue
  loading : Bool
  error : Option String

/-- State of the `post` slice (function.js): `{posts: [], loading: false,
error: null}` initially. -/
structure PostState where
  posts : JsValue
  loading : Bool
  error : Option String

/-- Initial state of the `user` slice. -/
def initialUserState : UserState :=
  { users := .arr [], loading := false, error := none }

/-- Initial state of the `post` slice. -/
def initialPostState : PostState :=
  { posts := .arr [], loading := false, error := none }

/-- Reducer generated by `createSlice` in userSlice.js: `reducers: {}` plus
the three `extraReducers` cases for `fetchUsers`; every action without a
declared case returns the state unchanged (the slice's default case). -/
def userReducer (s : UserState) : ReduxAction → UserState
  | .usersPending => { s with loading := true }
  | .usersFulfilled payload => { s with loading := false, users := payload }
  | .usersRejected msg => { s with loading := false, error := msg }
  | _ => s

/-- Reducer generated by `createSlice` in function.js: `reducers: {}` plus
the three `extraReducers` cases for `fetchPost`; every action without a
declared case returns the state unchanged. -/
def postReducer (s : PostState) : ReduxAction → PostState
  | .postPending => { s with loading := true }
  | .postFulfilled payload => { s with loading := false, posts := payload }
  | .postRejected msg => { s with loading := false, error := msg }
  | _ => s

/-- Combined store state from store.js: `{user: userReducer, post:
postReducer}`. -/
structure RootState where
  user : UserState
  post : PostState

/-- Root reducer of the configured store: each action is given to both
slice reducers, each acting on its own sub-state. -/
def rootReducer (s : RootState) (a : ReduxAction) : RootState :=
  { user := userReducer s.user a, post := postReducer s.post a }

/-- The filter semantics claim C1 describes, written from the claim's words:
each supplied (truthy) query parameter constrains its field by a
case-insensitive regex of that value — including `skill`, which the claim
says constrains `hiringCriteria.skills` by case-insensitive regex
matching. -/
def claimedC1Matches (name location skill : Option String) (doc : JsValue) : Bool :=
  (match name with
    | some p => if p ≠ "" then mongoRegexI p (doc.getField "name") else true
    | none => true) &&
  (match location with
    | some p => if p ≠ "" then mongoRegexI p (doc.getField "location") else true
    | none => true) &&
  (match skill with
    | some p => if p ≠ "" then mongoRegexI p (doc.getPath ["hiringCriteria", "skills"]) else true
    | none => true)

/-- The amended filter semantics for claim C1: name and location are
constrained by case-insensitive regex, skill by exact `$in` membership in
`hiringCriteria.skills` (case-sensitive, whole-string equality); absent or
empty parameters add no constraint. -/
def amendedC1Matches (name location skill : Option String) (doc : JsValue) : Bool :=
  (match name with
    | some p => if p ≠ "" then mongoRegexI p (doc.getField "name") else true
    | none => true) &&
  (match location with
    | some p => if p ≠ "" then mongoRegexI p (doc.getField "location") else true
    | none => true) &&
  (match skill with
    | some p => if p ≠ "" then mongoIn p (doc.getPath ["hiringCriteria", "skills"]) else true
    | none => true)

/-- A company document whose skills array holds "React", capitalised. -/
def docSkillCE : JsValue :=
  .obj [("name", .str "Acme"),
        ("hiringCriteria", .obj [("skills", .arr [.str "React"])])]

/-- Claim C1 is false as stated, at the concrete input skill = "react" on a
document with skills ["React"]: the claimed case-insensitive-regex
semantics would match, but the filter the route actually builds uses
`$in: [skill]`, an exact case-sensitive membership test, and does not
match. -/
theorem c1_counterexample :
    matchesFilter (buildFilter none none (some "react")) docSkillCE = false ∧
    claimedC1Matches none none (some "react") docSkillCE = true := by
  constructor <;> rfl

/-- Claim C1, amended: for every choice of query parameters and every
document, the filter built by the search route behaves as: name and
location constrained by case-insensitive regex when supplied and
non-empty, `hiringCriteria.skills` constrained by exact `$in` membership
of the skill value when supplied and non-empty, and no constraint from
absent or empty parameters. -/
theorem c1_amended_filter (name location skill : Option String) (doc : JsValue) :
    matchesFilter (buildFilter name location skill) doc =
      amendedC1Matches name location skill doc := by
  cases name <;> cases location <;> cases skill <;>
    simp [matchesFilter, buildFilter, amendedC1Matches, jsTruthy] <;>
    split_ifs <;> simp_all

/-- Claim C2: the get-by-id handler returns 400 on an invalid ObjectId for
every possible database outcome (so the database is never consulted), 404
when the id is valid but no document is found, 200 with the matched
document itself when one is found, 500 when an exception is raised, and no
status outside {200, 400, 404, 500} is ever produced. -/
theorem getById_contract (id e : String) (d : JsValue)
    (dbR : Except String (Option JsValue)) :
    (isValidObjectId id = false →
      getByIdGET id dbR = { status := 400, body := .obj [("error", .str "Invalid id")] }) ∧
    (isValidObjectId id = true →
      getByIdGET id (.ok none) = { status := 404, body := .obj [("error", .str "Not found")] } ∧
      getByIdGET id (.ok (some d)) = { status := 200, body := d } ∧
      getByIdGET id (.error e) = resp500) ∧
    ((getByIdGET id dbR).status = 200 ∨ (getByIdGET id dbR).status = 400 ∨
     (getByIdGET id dbR).status = 404 ∨ (getByIdGET id dbR).status = 500) := by
  refine ⟨fun h => ?_, fun h => ⟨?_, ?_, ?_⟩, ?_⟩
  · simp [getByIdGET, h]
  · simp [getByIdGET, h]
  · simp [getByIdGET, h]
  · simp [getByIdGET, h, resp500]
  · by_cases h : isValidObjectId id <;> rcases dbR with e2 | v <;>
      simp [getByIdGET, h, resp500]
    · rcases v with _ | d2 <;> simp

/-- Witness for claim C2 at concrete inputs: the invalid id "zz" yields 400,
and the valid id of 24 'a' characters with an empty findOne result yields
404. -/
theorem getById_contract_witness :
    getByIdGET "zz" (.ok none) = { status := 400, body := .obj [("error", .str "Invalid id")] } ∧
    getByIdGET "aaaaaaaaaaaaaaaaaaaaaaaa" (.ok none) =
      { status := 404, body := .obj [("error", .str "Not found")] } :=
  ⟨(getById_contract "zz" "boom" .null (.ok none)).1 (by decide),
   ((getById_contract "aaaaaaaaaaaaaaaaaaaaaaaa" "boom" .null (.ok none)).2.1 (by decide)).1⟩

/-- Claim C3: every response of the search handler is either a status-200
body of shape `{count, items}` whose count equals the length of the items
array, or a status-500 body of shape `{error}`; no other status or body
shape occurs. -/
theorem search_response_shape (name location skill : Option String)
    (dbR : Except String (List JsValue)) :
    (∃ items : List JsValue,
        searchGET name location skill dbR =
          { status := 200,
            body := .obj [("count", .num items.length), ("items", .arr items)] }) ∨
    (∃ e : String,
        searchGET name location skill dbR =
          { status := 500, body := .obj [("error", .str e)] }) := by
  rcases dbR with e | db
  · exact Or.inr ⟨"Internal Server Error", rfl⟩
  · exact Or.inl ⟨searchItems (buildFilter name location skill) db, rfl⟩

/-- A company document matching the name filter "acme". -/
def docACE : JsValue := .obj [("name", .str "Acme")]

/-- A second, distinct company document also matching "acme". -/
def docBCE : JsValue := .obj [("name", .str "Acme Labs")]

/-- A collection of 51 documents all matching the name filter "acme". -/
def dbC4 : List JsValue := List.replicate 50 docACE ++ [docBCE]

/-- The filter built for the query `?name=acme`. -/
def fC4 : MongoFilter := buildFilter (some "acme") none none

/-- Claim C4 is false as stated, at a concrete collection of 51 documents
that all match the filter: the document `docBCE` is in the collection and
matches, yet `limit(50)` drops it from the returned items. -/
theorem c4_counterexample :
    docBCE ∈ dbC4 ∧ matchesFilter fC4 docBCE = true ∧
    docBCE ∉ searchItems fC4 dbC4 := by
  refine ⟨by simp [dbC4], rfl, ?_⟩
  have h : searchItems fC4 dbC4 = List.replicate 50 docACE := by rfl
  rw [h]
  simp [List.mem_replicate, docACE, docBCE]

/-- Claim C4, amended: when the filter matches at least one document in the
collection, the returned items include at least one matching document (the
query returns the first up to 50 matches in collection order); when the
filter matches no document, the response is a status-200 empty items list
with count 0. -/
theorem search_match_amended (name location skill : Option String) (db : List JsValue) :
    ((∃ d ∈ db, matchesFilter (buildFilter name location skill) d = true) →
      ∃ d ∈ searchItems (buildFilter name location skill) db,
        matchesFilter (buildFilter name location skill) d = true) ∧
    ((∀ d ∈ db, matchesFilter (buildFilter name location skill) d = false) →
      searchGET name location skill (.ok db) =
        { status := 200, body := .obj [("count", .num 0), ("items", .arr [])] }) := by
  constructor
  · rintro ⟨d, hd, hm⟩
    have hmem : d ∈ db.filter fun x => matchesFilter (buildFilter name location skill) x :=
      List.mem_filter.2 ⟨hd, hm⟩
    rcases hl : db.filter fun x => matchesFilter (buildFilter name location skill) x with
      _ | ⟨x, xs⟩
    · rw [hl] at hmem; cases hmem
    · refine ⟨x, ?_, ?_⟩
      · unfold searchItems
        rw [hl]
        simp [List.take]
      · have hx : x ∈ db.filter fun y => matchesFilter (buildFilter name location skill) y := by
          rw [hl]; exact List.mem_cons_self x xs
        exact (List.mem_filter.1 hx).2
  · intro h
    have hnil : (db.filter fun x => matchesFilter (buildFilter name location skill) x) = [] := by
      rw [List.filter_eq_nil_iff]
      intro a ha
      simp [h a ha]
    simp only [searchGET, searchItems]
    rw [hnil]
    rfl

/-- Witness for amended claim C4 at concrete inputs: a one-document
collection matching `?name=acme` yields a matching item, and a skill query
matching nothing yields the empty 200 response. -/
theorem search_match_amended_witness :
    (∃ d ∈ searchItems (buildFilter (some "acme") none none) [docACE],
        matchesFilter (buildFilter (some "acme") none none) d = true) ∧
    searchGET none none (some "nosuch") (.ok [docACE]) =
      { status := 200, body := .obj [("count", .num 0), ("items", .arr [])] } :=
  ⟨(search_match_amended (some "acme") none none [docACE]).1 ⟨docACE, by simp, by rfl⟩,
   (search_match_amended none none (some "nosuch") [docACE]).2
     (by intro d hd; rw [List.mem_singleton] at hd; subst hd; rfl)⟩

/-- Claim C5: any exception raised inside either handler body is caught and
mapped to the generic `{error: 'Internal Server Error'}` response with
status 500; for the get-by-id route the database work, and hence the
exceptional path, is only reached when the id is valid. -/
theorem handlers_catch_exceptions (name location skill : Option String)
    (id e : String) :
    searchGET name location skill (.error e) = resp500 ∧
    (isValidObjectId id = true → getByIdGET id (.error e) = resp500) :=
  ⟨rfl, fun h => by simp [getByIdGET, h]⟩

/-- Witness for claim C5 at concrete inputs: an injected exception "boom"
yields the generic 500 from both handlers. -/
theorem handlers_catch_exceptions_witness :
    searchGET none none none (.error "boom") = resp500 ∧
    getByIdGET "aaaaaaaaaaaaaaaaaaaaaaaa" (.error "boom") = resp500 :=
  ⟨(handlers_catch_exceptions none none none "aaaaaaaaaaaaaaaaaaaaaaaa" "boom").1,
   (handlers_catch_exceptions none none none "aaaaaaaaaaaaaaaaaaaaaaaa" "boom").2
     (by decide)⟩

/-- Claim C8: an injected exception never produces status 200; every
successful database outcome produces a status-200 response whose count is
the length of the returned items, and that length never exceeds 50, for
every choice of query parameters and every database contents. -/
theorem search_limit_cap (name location skill : Option String)
    (db : List JsValue) (e : String) :
    (searchGET name location skill (.error e)).status ≠ 200 ∧
    (searchGET name location skill (.ok db)).status = 200 ∧
    (searchGET name location skill (.ok db)).body =
      .obj [("count", .num (searchItems (buildFilter name location skill) db).length),
            ("items", .arr (searchItems (buildFilter name location skill) db))] ∧
    (searchItems (buildFilter name location skill) db).length ≤ 50 := by
  refine ⟨by simp [searchGET, resp500], rfl, rfl, ?_⟩
  unfold searchItems
  exact List.length_take_le 50 _

/-- Claim C6: for every state, the user slice on `fetchUsers.rejected` and
the post slice on `fetchPost.rejected` set loading to false and store the
rejected action's error message into the state's error field unmodified. -/
theorem rejected_stores_message (s : UserState) (t : PostState) (mu mp : Option String) :
    userReducer s (.usersRejected mu) = { s with loading := false, error := mu } ∧
    postReducer t (.postRejected mp) = { t with loading := false, error := mp } :=
  ⟨rfl, rfl⟩

/-- Claim C7: for every state, the user slice reducer handles exactly the
three lifecycle actions of `fetchUsers` — pending sets loading true,
fulfilled sets loading false and replaces users with the payload, rejected
sets loading false and sets error — and every other action leaves the
slice state unchanged. -/
theorem userSlice_lifecycle (s : UserState) (p : JsValue) (m : Option String)
    (a : ReduxAction) :
    userReducer s .usersPending = { s with loading := true } ∧
    userReducer s (.usersFulfilled p) = { s with loading := false, users := p } ∧
    userReducer s (.usersRejected m) = { s with loading := false, error := m } ∧
    (a ≠ .usersPending → (∀ q, a ≠ .usersFulfilled q) →
      (∀ m2, a ≠ .usersRejected m2) → userReducer s a = s) := by
  refine ⟨rfl, rfl, rfl, fun h1 h2 h3 => ?_⟩
  cases a with
  | usersPending => exact absurd rfl h1
  | usersFulfilled q => exact absurd rfl (h2 q)
  | usersRejected m2 => exact absurd rfl (h3 m2)
  | postPending => rfl
  | postFulfilled _q => rfl
  | postRejected _m2 => rfl
  | other _ty => rfl

/-- Witness for claim C7 at a concrete input: the post slice's pending
action, which the user slice declares no case for, leaves the initial user
state unchanged. -/
theorem userSlice_lifecycle_witness :
    userReducer initialUserState .postPending = initialUserState :=
  (userSlice_lifecycle initialUserState .null none .postPending).2.2.2
    (fun h => ReduxAction.noConfusion h)
    (fun _q h => ReduxAction.noConfusion h)
    (fun _m2 h => ReduxAction.noConfusion h)

/-- Claim C9: for every state, the pending action of each thunk changes only
the loading flag: the users (respectively posts) field and, in particular,
any error message left by a previous rejection are unchanged while the new
fetch is in flight. -/
theorem pending_frame (s : UserState) (t : PostState) :
    userReducer s .usersPending = { s with loading := true } ∧
    (userReducer s .usersPending).users = s.users ∧
    (userReducer s .usersPending).error = s.error ∧
    postReducer t .postPending = { t with loading := true } ∧
    (postReducer t .postPending).posts = t.posts ∧
    (postReducer t .postPending).error = t.error :=
  ⟨rfl, rfl, rfl, rfl, rfl, rfl⟩

/-- Claim C10: in the combined store, every `fetchUsers` lifecycle action
leaves the post sub-state unchanged and every `fetchPost` lifecycle action
leaves the user sub-state unchanged. -/
theorem slices_independent (s : RootState) (pu pp : JsValue) (mu mp : Option String) :
    (rootReducer s .usersPending).post = s.post ∧
    (rootReducer s (.usersFulfilled pu)).post = s.post ∧
    (rootReducer s (.usersRejected mu)).post = s.post ∧
    (rootReducer s .postPending).user = s.user ∧
    (rootReducer s (.postFulfilled pp)).user = s.user ∧
    (rootReducer s (.postRejected mp)).user = s.user :=
  ⟨rfl, rfl, rfl, rfl, rfl, rfl⟩
